import Mathlib

set_option maxHeartbeats 1000000

/-!
Shallow embedding of `src/automated_deploy_v2.js`, the resumable deployment
pipeline with the `.deploy_progress.json` sidecar (the most complete variant
of the program, the one the specification consolidates).  External effects
(CLI invocations, file-system probes, `Math.random`, `Date.now`) are supplied
by explicit environment records; the embedding computes the resulting status
record, the sequence of persisted saves, the trace of external command
invocations, the final working directory and the folder's final location.
-/

/-- The persisted per-folder progress record (`.deploy_progress.json`):
three stage flags plus the chosen repository name
(`{ github, vercel, netlify, repoName }`). -/
structure Status where
  github : Bool
  vercel : Bool
  netlify : Bool
  repoName : Option String
deriving Repr, DecidableEq

/-- The initial value of `status` in the main loop:
`{ github: false, vercel: false, netlify: false, repoName: null }`. -/
def defaultStatus : Status := ⟨false, false, false, none⟩

/-- Result of reading the sidecar file: `none` = file absent,
`some none` = file present but `JSON.parse` throws,
`some (some s)` = file parses to record `s`.  The code only overwrites the
default record when the file exists and parses (`try {...} catch (e) {}`),
so absent and malformed content both leave the default. -/
def loadStatus : Option (Option Status) → Status
  | some (some s) => s
  | _ => defaultStatus

/-- JavaScript `status.repoName || baseName`: `null` and the empty string
are falsy, so both fall back to the base name. -/
def jsOr : Option String → String → String
  | some s, b => if s = "" then b else s
  | none, b => b

/-- Characters kept by the filter `replace(/[^a-z0-9-]/g, '')`
(applied after lowercasing). -/
def isAllowedChar (c : Char) : Bool :=
  (decide ('a' ≤ c) && decide (c ≤ 'z')) ||
  (decide ('0' ≤ c) && decide (c ≤ '9')) || c == '-'

/-- `replace(/\s+/g, '-')`: every maximal run of whitespace becomes a single
dash (ASCII whitespace models the regex class). -/
def wsRunToDash : List Char → List Char
  | [] => []
  | [c] => if c.isWhitespace then ['-'] else [c]
  | c :: d :: rest =>
    if c.isWhitespace then
      if d.isWhitespace then wsRunToDash (d :: rest)
      else '-' :: wsRunToDash (d :: rest)
    else c :: wsRunToDash (d :: rest)

/-- The dash-collapsing replace of the cleaning chain: runs of dashes become
a single dash. -/
def collapseDashes : List Char → List Char
  | [] => []
  | [c] => [c]
  | c :: d :: rest =>
    if c == '-' && d == '-' then collapseDashes (d :: rest)
    else c :: collapseDashes (d :: rest)

/-- First half of `replace(/^-|-$/g, '')`: drop one leading dash. -/
def dropLeadingDash : List Char → List Char
  | '-' :: rest => rest
  | l => l

/-- Second half of `replace(/^-|-$/g, '')`: drop one trailing dash. -/
def dropTrailingDash (l : List Char) : List Char :=
  match l.reverse with
  | '-' :: rest => rest.reverse
  | _ => l

/-- The name-cleaning chain of the main loop: lowercase, whitespace runs to
dashes, strip disallowed characters, collapse dashes, trim edge dashes. -/
def cleanName (s : String) : String :=
  String.mk (dropTrailingDash (dropLeadingDash (collapseDashes
    ((wsRunToDash (s.data.map Char.toLower)).filter isAllowedChar))))

/-- `baseName` derivation: the cleaned folder name, or
`project-${index}` when cleaning yields the empty string. -/
def deriveBaseName (folder : String) (index : Nat) : String :=
  let b := cleanName folder
  if b = "" then "project-" ++ toString index else b

/-- One external command invocation (an `execSync` call with side effects). -/
inductive ExtCall where
  | gitInit : ExtCall
  | gitAdd : ExtCall
  | gitCommit : ExtCall
  | ghCreate : String → ExtCall
  | gitPush : String → ExtCall
  | vercelAdd : String → ExtCall
  | vercelDeploy : ExtCall
  | netlifyCreate : String → ExtCall
  | netlifyLink : ExtCall
  | netlifyDeploy : ExtCall
  | taskkill : ExtCall
deriving Repr, DecidableEq

/-- Outcome of one `gh repo create` invocation: success, or a non-zero exit
carrying the captured stderr text (`errOutput`). -/
inductive CreateResult where
  | ok : CreateResult
  | fail : String → CreateResult
deriving Repr, DecidableEq

/-- JavaScript `s.includes(sub)`: substring containment. -/
def jsIncludes (s sub : String) : Bool := decide (sub.data <:+: s.data)

/-- The first stderr check of the creation loop:
`errOutput.includes("already exists") || errOutput.includes("name already exists")`. -/
def isCollideErr (e : String) : Bool :=
  jsIncludes e "already exists" || jsIncludes e "name already exists"

/-- The second stderr check of the creation loop:
`errOutput.includes("remote origin already exists")`. -/
def isRemoteErr (e : String) : Bool :=
  jsIncludes e "remote origin already exists"

/-- Result of `createGitHubRepo`: the returned name, the (internal)
`created` flag, the repo names attempted via `gh repo create` in order,
and the branches attempted via `git push -u origin <branch>` in order. -/
structure GhResult where
  name : String
  created : Bool
  tried : List String
  pushes : List String
deriving Repr, DecidableEq

/-- The retry loop of `createGitHubRepo`.  `fuel` is the remaining attempt
budget (`maxAttempts - attempts`, and `attempts` only increments on the
first stderr check), `cur` is `currentName`, `idx` counts `gh repo create`
calls made so far (indexing the environment).  The stderr checks are tested
in the source's order: the "already exists" check first (rename the
candidate — built from the original `pn`, never from `cur` — and retry),
then the "remote origin already exists" check (stop, push `master` and on
failure `main`, and return the current name), then anything else breaks out
of the loop. -/
def ghLoop (env : Nat → CreateResult) (suf : Nat → Nat) (pushMasterOk : Bool)
    (pn : String) : Nat → String → Nat → GhResult
  | 0, cur, _ => ⟨cur, false, [], []⟩
  | fuel + 1, cur, idx =>
    match env idx with
    | CreateResult.ok => ⟨cur, true, [cur], []⟩
    | CreateResult.fail err =>
      if isCollideErr err then
        let r := ghLoop env suf pushMasterOk pn fuel
          (pn ++ "-" ++ toString (suf idx)) (idx + 1)
        ⟨r.name, r.created, cur :: r.tried, r.pushes⟩
      else if isRemoteErr err then
        ⟨cur, true, [cur], if pushMasterOk then ["master"] else ["master", "main"]⟩
      else ⟨cur, false, [cur], []⟩

/-- `createGitHubRepo(projectName, projectPath)`: up to `maxAttempts = 5`
creation attempts starting from `projectName`. -/
def createGitHubRepo (env : Nat → CreateResult) (suf : Nat → Nat)
    (pushMasterOk : Bool) (pn : String) : GhResult :=
  ghLoop env suf pushMasterOk pn 5 pn 0

/-- Outcome of one `fs.renameSync` attempt: success, a lock-class error
(`EBUSY`/`EPERM`/`EACCES`), or any other error. -/
inductive MoveOutcome where
  | ok : MoveOutcome
  | lock : MoveOutcome
  | other : MoveOutcome
deriving Repr, DecidableEq

/-- Result of `moveFolderWithRetry`: whether the rename succeeded, whether a
non-lock error was rethrown, how many rename attempts were made, the sleeps
between attempts (milliseconds), and how many `taskkill` invocations ran. -/
structure MoveResult where
  moved : Bool
  threw : Bool
  renameAttempts : Nat
  delays : List Nat
  kills : Nat
deriving Repr, DecidableEq

/-- The retry loop of `moveFolderWithRetry`: `fuel` is the remaining attempt
budget (`maxAttempts - attempts`, starting at 10), `idx` indexes the rename
attempts.  A lock-class failure sleeps 3000 ms, runs `taskkill`, and retries;
any other error is rethrown; exhausting the budget reports failure. -/
def moveLoop (env : Nat → MoveOutcome) : Nat → Nat → MoveResult
  | 0, _ => ⟨false, false, 0, [], 0⟩
  | fuel + 1, idx =>
    match env idx with
    | MoveOutcome.ok => ⟨true, false, 1, [], 0⟩
    | MoveOutcome.lock =>
      let r := moveLoop env fuel (idx + 1)
      ⟨r.moved, r.threw, r.renameAttempts + 1, 3000 :: r.delays, r.kills + 1⟩
    | MoveOutcome.other => ⟨false, true, 1, [], 0⟩

/-- `moveFolderWithRetry(src, dest)` with `maxAttempts = 10`. -/
def moveFolderWithRetry (env : Nat → MoveOutcome) : MoveResult :=
  moveLoop env 10 0

/-- Environment of one iteration of the main loop over one folder: sidecar
parse result, file-system probes, and the outcomes of every external action. -/
structure FolderEnv where
  sidecar : Option (Option Status)
  hasGitDir : Bool
  hasNetlifyDir : Bool
  gh : Nat → CreateResult
  suf : Nat → Nat
  pushMasterOk : Bool
  vercelOk : Bool
  netlifyCreateOk : Bool
  netSuffix : Nat
  netlifyOk : Bool
  destExists : Bool
  now : Nat
  move : Nat → MoveOutcome
  chdirProjectOk : Bool

/-- Output of one stage block: the status after the block, the records
persisted by the block (in order), and the external calls it made. -/
structure StageOut where
  status : Status
  saves : List Status
  calls : List ExtCall
deriving Repr, DecidableEq

/-- The GitHub stage block of the main loop.  When the flag is unset it runs
`createGitHubRepo(status.repoName || baseName, ...)`; the returned name is
checked for truthiness (`if (finalRepoName)`), and when truthy the flag and
`repoName` are set and the record is written — note the code performs this
whether or not creation actually succeeded, since `createGitHubRepo` returns
`currentName` on every path. -/
def githubStage (env : FolderEnv) (base : String) (s : Status) : StageOut :=
  if s.github then ⟨s, [], []⟩
  else
    let r := createGitHubRepo env.gh env.suf env.pushMasterOk (jsOr s.repoName base)
    let cs := r.tried.map ExtCall.ghCreate ++ r.pushes.map ExtCall.gitPush
    if r.name = "" then ⟨s, [], cs⟩
    else
      let s2 : Status := { s with github := true, repoName := some r.name }
      ⟨s2, [s2], cs⟩

/-- The Vercel stage block: `vercel project add` (failure swallowed) then
`vercel --prod --yes`; on deploy success the flag is set and the record
written, on failure nothing is written. -/
def vercelStage (env : FolderEnv) (base : String) (s : Status) : StageOut :=
  if s.vercel then ⟨s, [], []⟩
  else
    let cs := [ExtCall.vercelAdd (jsOr s.repoName base), ExtCall.vercelDeploy]
    if env.vercelOk then
      let s2 : Status := { s with vercel := true }
      ⟨s2, [s2], cs⟩
    else ⟨s, [], cs⟩

/-- The Netlify stage block: when no `.netlify` directory exists it attempts
`netlify sites:create` (and, when that succeeds, `netlify link`), with all
failures swallowed; then `netlify deploy --prod --dir=.`; on deploy success
the flag is set and the record written. -/
def netlifyStage (env : FolderEnv) (base : String) (s : Status) : StageOut :=
  if s.netlify then ⟨s, [], []⟩
  else
    let site := jsOr s.repoName base ++ "-" ++ toString env.netSuffix
    let link :=
      if env.hasNetlifyDir then []
      else if env.netlifyCreateOk then [ExtCall.netlifyCreate site, ExtCall.netlifyLink]
      else [ExtCall.netlifyCreate site]
    let cs := link ++ [ExtCall.netlifyDeploy]
    if env.netlifyOk then
      let s2 : Status := { s with netlify := true }
      ⟨s2, [s2], cs⟩
    else ⟨s, [], cs⟩

/-- The unconditional preamble of every iteration: `git init` when no `.git`
directory exists, then `git add .` and `git commit` (commit failure
swallowed).  These run before any stage guard is consulted. -/
def preambleCalls (env : FolderEnv) : List ExtCall :=
  (if env.hasGitDir then [] else [ExtCall.gitInit]) ++
    [ExtCall.gitAdd, ExtCall.gitCommit]

/-- The three stage blocks in their fixed order, threading the status record
and accumulating saves and calls. -/
def runStages (env : FolderEnv) (base : String) (s0 : Status) : StageOut :=
  let g := githubStage env base s0
  let v := vercelStage env base g.status
  let n := netlifyStage env base v.status
  ⟨n.status, g.saves ++ v.saves ++ n.saves,
    preambleCalls env ++ g.calls ++ v.calls ++ n.calls⟩

/-- The relocation gate of the main loop:
`status.github && status.vercel && status.netlify`. -/
def allDone (s : Status) : Bool := s.github && s.vercel && s.netlify

/-- `path.join(SOURCE_DIR, folder)`. -/
def projectPath (root folder : String) : String := root ++ "/" ++ folder

/-- `path.join(UPLOAD_DONE_DIR, name)` where
`UPLOAD_DONE_DIR = path.join(SOURCE_DIR, 'upload done')`. -/
def donePath (root name : String) : String := root ++ "/upload done/" ++ name

/-- The destination-collision policy: when the destination already exists the
name is suffixed with `_${Date.now()}`. -/
def finalDestName (env : FolderEnv) (folder : String) : String :=
  if env.destExists then folder ++ "_" ++ toString env.now else folder

/-- Result of processing one folder: final in-memory status, persisted saves
in order, external-command trace, final working directory, the folder's final
location, whether the relocation step was reached, the working directory just
before the relocation step (when reached), and the rename destination used
(when reached). -/
structure FolderResult where
  status : Status
  saves : List Status
  calls : List ExtCall
  cwd : String
  location : String
  moveInvoked : Bool
  preMoveCwd : Option String
  destUsed : Option String
deriving Repr, DecidableEq

/-- One iteration of the main loop over one folder.  `chdirProjectOk = false`
models `process.chdir(projectPath)` throwing, which the per-folder catch
absorbs after restoring the working directory to the root.  On the gate path
the code first restores the working directory to the root, computes the
(collision-aware) destination, and runs `moveFolderWithRetry`; a rethrown
non-lock rename error lands in the same per-folder catch (which restores the
root again), so the final working directory is the root on that path too.
When the gate fails the code merely logs and leaves the folder in place,
without changing the working directory back. -/
def processFolder (env : FolderEnv) (root folder : String) (index : Nat) :
    FolderResult :=
  if env.chdirProjectOk then
    let st := runStages env (deriveBaseName folder index) (loadStatus env.sidecar)
    if allDone st.status then
      let dest := donePath root (finalDestName env folder)
      let mv := moveFolderWithRetry env.move
      { status := st.status, saves := st.saves,
        calls := st.calls ++ List.replicate mv.kills ExtCall.taskkill,
        cwd := root,
        location := if mv.moved then dest else projectPath root folder,
        moveInvoked := true, preMoveCwd := some root, destUsed := some dest }
    else
      { status := st.status, saves := st.saves, calls := st.calls,
        cwd := projectPath root folder, location := projectPath root folder,
        moveInvoked := false, preMoveCwd := none, destUsed := none }
  else
    { status := loadStatus env.sidecar, saves := [], calls := [],
      cwd := root, location := projectPath root folder,
      moveInvoked := false, preMoveCwd := none, destUsed := none }

/-- Pointwise ordering on stage flags: no flag regresses from true to false. -/
def statusLe (a b : Status) : Prop :=
  (a.github = true → b.github = true) ∧
  (a.vercel = true → b.vercel = true) ∧
  (a.netlify = true → b.netlify = true)

/-- Calls belonging to the version-control collaborator. -/
def isGhCall : ExtCall → Bool
  | ExtCall.ghCreate _ => true
  | ExtCall.gitPush _ => true
  | _ => false

/-- Calls belonging to the Vercel collaborator. -/
def isVercelCall : ExtCall → Bool
  | ExtCall.vercelAdd _ => true
  | ExtCall.vercelDeploy => true
  | _ => false

/-- Calls belonging to the Netlify collaborator. -/
def isNetlifyCall : ExtCall → Bool
  | ExtCall.netlifyCreate _ => true
  | ExtCall.netlifyLink => true
  | ExtCall.netlifyDeploy => true
  | _ => false

/-- Calls of the unconditional git preamble. -/
def isPreambleCall : ExtCall → Bool
  | ExtCall.gitInit => true
  | ExtCall.gitAdd => true
  | ExtCall.gitCommit => true
  | _ => false

/-! ### Basic lemmas -/

theorem statusLe_refl (s : Status) : statusLe s s :=
  ⟨id, id, id⟩

theorem deriveBaseName_ne_empty (folder : String) (index : Nat) :
    deriveBaseName folder index ≠ "" := by
  simp only [deriveBaseName]
  split
  case isTrue h =>
    intro hc
    have h2 := congrArg String.length hc
    rw [String.length_append] at h2
    have h3 : ("project-").length = 8 := rfl
    have h4 : ("" : String).length = 0 := rfl
    omega
  case isFalse h => exact h

theorem string_append_underscore_ne (a b c : String) :
    a ++ (b ++ "_" ++ c) ≠ a ++ b := by
  intro h
  have h2 := congrArg String.length h
  rw [String.length_append, String.length_append, String.length_append,
    String.length_append] at h2
  have h3 : ("_").length = 1 := rfl
  omega

/-! ### Lemmas about the relocation retry loop -/

theorem moveLoop_run_ok (env : Nat → MoveOutcome) :
    ∀ (n fuel idx : Nat), n < fuel →
      (∀ i, i < n → env (idx + i) = MoveOutcome.lock) →
      env (idx + n) = MoveOutcome.ok →
      moveLoop env fuel idx = ⟨true, false, n + 1, List.replicate n 3000, n⟩ := by
  intro n
  induction n with
  | zero =>
    intro fuel idx hf _ hok
    cases fuel with
    | zero => omega
    | succ f =>
      simp only [Nat.add_zero] at hok
      simp [moveLoop, hok]
  | succ n ih =>
    intro fuel idx hf hlock hok
    cases fuel with
    | zero => omega
    | succ f =>
      have h0 : env idx = MoveOutcome.lock := by
        have := hlock 0 (Nat.succ_pos n)
        simpa using this
      have hrec := ih f (idx + 1) (by omega)
        (fun i hi => by
          have := hlock (i + 1) (by omega)
          rw [show idx + (i + 1) = idx + 1 + i by omega] at this
          exact this)
        (by rw [show idx + 1 + n = idx + (n + 1) by omega]; exact hok)
      simp [moveLoop, h0, hrec, List.replicate_succ]

theorem moveLoop_exhaust (env : Nat → MoveOutcome) :
    ∀ (fuel idx : Nat),
      (∀ i, i < fuel → env (idx + i) = MoveOutcome.lock) →
      moveLoop env fuel idx = ⟨false, false, fuel, List.replicate fuel 3000, fuel⟩ := by
  intro fuel
  induction fuel with
  | zero => intro idx _; simp [moveLoop]
  | succ f ih =>
    intro idx hlock
    have h0 : env idx = MoveOutcome.lock := by
      have := hlock 0 (Nat.succ_pos f)
      simpa using this
    have hrec := ih (idx + 1)
      (fun i hi => by
        have := hlock (i + 1) (by omega)
        rw [show idx + (i + 1) = idx + 1 + i by omega] at this
        exact this)
    simp [moveLoop, h0, hrec, List.replicate_succ]

theorem moveLoop_run_other (env : Nat → MoveOutcome) :
    ∀ (n fuel idx : Nat), n < fuel →
      (∀ i, i < n → env (idx + i) = MoveOutcome.lock) →
      env (idx + n) = MoveOutcome.other →
      moveLoop env fuel idx = ⟨false, true, n + 1, List.replicate n 3000, n⟩ := by
  intro n
  induction n with
  | zero =>
    intro fuel idx hf _ hot
    cases fuel with
    | zero => omega
    | succ f =>
      simp only [Nat.add_zero] at hot
      simp [moveLoop, hot]
  | succ n ih =>
    intro fuel idx hf hlock hot
    cases fuel with
    | zero => omega
    | succ f =>
      have h0 : env idx = MoveOutcome.lock := by
        have := hlock 0 (Nat.succ_pos n)
        simpa using this
      have hrec := ih f (idx + 1) (by omega)
        (fun i hi => by
          have := hlock (i + 1) (by omega)
          rw [show idx + (i + 1) = idx + 1 + i by omega] at this
          exact this)
        (by rw [show idx + 1 + n = idx + (n + 1) by omega]; exact hot)
      simp [moveLoop, h0, hrec, List.replicate_succ]

/-! ### Lemmas about the GitHub creation retry loop -/

theorem remote_err_is_collide (e : String) (h : isRemoteErr e = true) :
    isCollideErr e = true := by
  rw [isRemoteErr, jsIncludes, decide_eq_true_iff] at h
  have h2 : ("already exists").data <:+: e.data :=
    List.IsInfix.trans (by decide) h
  rw [isCollideErr, jsIncludes, Bool.or_eq_true, decide_eq_true_iff]
  exact Or.inl h2

theorem ghLoop_pushes_nil (env : Nat → CreateResult) (suf : Nat → Nat)
    (pm : Bool) (pn : String) :
    ∀ (fuel idx : Nat) (cur : String),
      (ghLoop env suf pm pn fuel cur idx).pushes = [] := by
  intro fuel
  induction fuel with
  | zero => intro idx cur; rfl
  | succ f ih =>
    intro idx cur
    simp only [ghLoop]
    cases env idx with
    | ok => rfl
    | fail err =>
      by_cases hcoll : isCollideErr err = true
      · simp only [hcoll, if_true]
        exact ih (idx + 1) (pn ++ "-" ++ toString (suf idx))
      · have hrem : ¬(isRemoteErr err = true) := fun hr =>
          hcoll (remote_err_is_collide err hr)
        simp [hcoll, hrem]

theorem ghLoop_names (env : Nat → CreateResult) (suf : Nat → Nat)
    (pm : Bool) (pn : String) :
    ∀ (fuel idx : Nat) (cur : String),
      (cur = pn ∨ ∃ i, cur = pn ++ "-" ++ toString (suf i)) →
      ((ghLoop env suf pm pn fuel cur idx).name = pn ∨
        ∃ i, (ghLoop env suf pm pn fuel cur idx).name = pn ++ "-" ++ toString (suf i)) ∧
      (∀ n ∈ (ghLoop env suf pm pn fuel cur idx).tried,
        n = pn ∨ ∃ i, n = pn ++ "-" ++ toString (suf i)) := by
  intro fuel
  induction fuel with
  | zero => intro idx cur hcur; simpa [ghLoop] using hcur
  | succ f ih =>
    intro idx cur hcur
    simp only [ghLoop]
    cases env idx with
    | ok =>
      refine ⟨by simpa using hcur, ?_⟩
      intro n hn
      simp only [List.mem_singleton] at hn
      rw [hn]; exact hcur
    | fail err =>
      by_cases hcoll : isCollideErr err = true
      · have hrec := ih (idx + 1) (pn ++ "-" ++ toString (suf idx)) (Or.inr ⟨idx, rfl⟩)
        refine ⟨by simpa [hcoll] using hrec.1, ?_⟩
        intro n hn
        simp only [hcoll, if_true, List.mem_cons] at hn
        rcases hn with h | h
        · rw [h]; exact hcur
        · exact hrec.2 n h
      · by_cases hrem : isRemoteErr err = true
        · refine ⟨by simpa [hcoll, hrem] using hcur, ?_⟩
          intro n hn
          simp [hcoll, hrem] at hn
          rw [hn]; exact hcur
        · refine ⟨by simpa [hcoll, hrem] using hcur, ?_⟩
          intro n hn
          simp [hcoll, hrem] at hn
          rw [hn]; exact hcur

/-! ### Lemmas about the three stage blocks -/

theorem githubStage_skip (env : FolderEnv) (base : String) (s : Status)
    (h : s.github = true) : githubStage env base s = ⟨s, [], []⟩ := by
  simp [githubStage, h]

theorem vercelStage_skip (env : FolderEnv) (base : String) (s : Status)
    (h : s.vercel = true) : vercelStage env base s = ⟨s, [], []⟩ := by
  simp [vercelStage, h]

theorem netlifyStage_skip (env : FolderEnv) (base : String) (s : Status)
    (h : s.netlify = true) : netlifyStage env base s = ⟨s, [], []⟩ := by
  simp [netlifyStage, h]

theorem githubStage_shape (env : FolderEnv) (base : String) (s : Status) :
    ((githubStage env base s).status = s ∧ (githubStage env base s).saves = []) ∨
    (statusLe s (githubStage env base s).status ∧
      (githubStage env base s).saves = [(githubStage env base s).status]) := by
  simp only [githubStage]
  split
  · exact Or.inl ⟨rfl, rfl⟩
  · split
    · exact Or.inl ⟨rfl, rfl⟩
    · exact Or.inr ⟨⟨fun _ => rfl, id, id⟩, rfl⟩

theorem vercelStage_shape (env : FolderEnv) (base : String) (s : Status) :
    ((vercelStage env base s).status = s ∧ (vercelStage env base s).saves = []) ∨
    (statusLe s (vercelStage env base s).status ∧
      (vercelStage env base s).saves = [(vercelStage env base s).status]) := by
  simp only [vercelStage]
  split
  · exact Or.inl ⟨rfl, rfl⟩
  · split
    · exact Or.inr ⟨⟨id, fun _ => rfl, id⟩, rfl⟩
    · exact Or.inl ⟨rfl, rfl⟩

theorem netlifyStage_shape (env : FolderEnv) (base : String) (s : Status) :
    ((netlifyStage env base s).status = s ∧ (netlifyStage env base s).saves = []) ∨
    (statusLe s (netlifyStage env base s).status ∧
      (netlifyStage env base s).saves = [(netlifyStage env base s).status]) := by
  simp only [netlifyStage]
  split
  · exact Or.inl ⟨rfl, rfl⟩
  · split
    · exact Or.inr ⟨⟨id, id, fun _ => rfl⟩, rfl⟩
    · exact Or.inl ⟨rfl, rfl⟩

theorem chain_three (s0 : Status) (g v n : StageOut)
    (hg : (g.status = s0 ∧ g.saves = []) ∨ (statusLe s0 g.status ∧ g.saves = [g.status]))
    (hv : (v.status = g.status ∧ v.saves = []) ∨
      (statusLe g.status v.status ∧ v.saves = [v.status]))
    (hn : (n.status = v.status ∧ n.saves = []) ∨
      (statusLe v.status n.status ∧ n.saves = [n.status])) :
    List.Chain' statusLe (s0 :: (g.saves ++ v.saves ++ n.saves) ++ [n.status]) := by
  rcases hg with ⟨hg1, hg2⟩ | ⟨hg1, hg2⟩ <;>
    rcases hv with ⟨hv1, hv2⟩ | ⟨hv1, hv2⟩ <;>
      rcases hn with ⟨hn1, hn2⟩ | ⟨hn1, hn2⟩ <;>
        simp only [hg2, hv2, hn2, List.nil_append, List.append_nil, List.cons_append,
          List.singleton_append, List.chain'_cons, List.chain'_singleton, and_true]
  · rw [hn1, hv1, hg1]; exact statusLe_refl s0
  · rw [hv1, hg1] at hn1; exact ⟨hn1, statusLe_refl _⟩
  · rw [hg1] at hv1; exact ⟨hv1, by rw [hn1]; exact statusLe_refl _⟩
  · rw [hg1] at hv1; exact ⟨hv1, hn1, statusLe_refl _⟩
  · exact ⟨hg1, by rw [hn1, hv1]; exact statusLe_refl _⟩
  · rw [hv1] at hn1; exact ⟨hg1, hn1, statusLe_refl _⟩
  · exact ⟨hg1, hv1, by rw [hn1]; exact statusLe_refl _⟩
  · exact ⟨hg1, hv1, hn1, statusLe_refl _⟩

theorem runStages_chain (env : FolderEnv) (base : String) (s0 : Status) :
    List.Chain' statusLe
      (s0 :: (runStages env base s0).saves ++ [(runStages env base s0).status]) := by
  exact chain_three s0 _ _ _ (githubStage_shape env base s0)
    (vercelStage_shape env base _) (netlifyStage_shape env base _)

/-! ### Which collaborator each stage block's calls belong to -/

theorem countP_zero_of_all_false {p : ExtCall → Bool} {l : List ExtCall}
    (h : ∀ c ∈ l, p c = false) : l.countP p = 0 :=
  List.countP_eq_zero.mpr (fun a ha => by simp [h a ha])

theorem preamble_mem (env : FolderEnv) :
    ∀ c ∈ preambleCalls env,
      c = ExtCall.gitInit ∨ c = ExtCall.gitAdd ∨ c = ExtCall.gitCommit := by
  intro c hc
  cases h : env.hasGitDir <;> simp [preambleCalls, h] at hc <;> tauto

theorem githubStage_mem (env : FolderEnv) (base : String) (s : Status) :
    ∀ c ∈ (githubStage env base s).calls,
      (∃ x, c = ExtCall.ghCreate x) ∨ ∃ x, c = ExtCall.gitPush x := by
  simp only [githubStage]
  split
  · intro c hc; simp at hc
  · split <;>
      · intro c hc
        simp only [List.mem_append, List.mem_map] at hc
        rcases hc with ⟨n, _, rfl⟩ | ⟨b, _, rfl⟩
        · exact Or.inl ⟨n, rfl⟩
        · exact Or.inr ⟨b, rfl⟩

theorem vercelStage_mem (env : FolderEnv) (base : String) (s : Status) :
    ∀ c ∈ (vercelStage env base s).calls,
      (∃ x, c = ExtCall.vercelAdd x) ∨ c = ExtCall.vercelDeploy := by
  simp only [vercelStage]
  split
  · intro c hc; simp at hc
  · split <;>
      · intro c hc
        simp only [List.mem_cons, List.not_mem_nil, or_false] at hc
        rcases hc with rfl | rfl
        · exact Or.inl ⟨jsOr s.repoName base, rfl⟩
        · exact Or.inr rfl

theorem netlifyStage_mem (env : FolderEnv) (base : String) (s : Status) :
    ∀ c ∈ (netlifyStage env base s).calls,
      (∃ x, c = ExtCall.netlifyCreate x) ∨ c = ExtCall.netlifyLink ∨
        c = ExtCall.netlifyDeploy := by
  intro c hc
  simp only [netlifyStage] at hc
  cases hs : s.netlify <;> simp only [hs, if_true, if_false, Bool.false_eq_true,
    Bool.true_eq_false, ite_true, ite_false] at hc
  · cases h1 : env.netlifyOk <;> cases h2 : env.hasNetlifyDir <;>
      cases h3 : env.netlifyCreateOk <;>
      simp only [h1, h2, h3, if_true, if_false, Bool.false_eq_true, Bool.true_eq_false,
        ite_true, ite_false, List.nil_append, List.cons_append, List.mem_cons,
        List.mem_singleton, List.not_mem_nil, or_false, false_or] at hc <;>
      first
      | (rcases hc with rfl | rfl | rfl
         · exact Or.inl ⟨_, rfl⟩
         · exact Or.inr (Or.inl rfl)
         · exact Or.inr (Or.inr rfl))
      | (rcases hc with rfl | rfl
         · exact Or.inl ⟨_, rfl⟩
         · exact Or.inr (Or.inr rfl))
      | (rcases hc with rfl
         · exact Or.inr (Or.inr rfl))
  · simp at hc

/-! ### Structure of one main-loop iteration -/

theorem runStages_calls_def (env : FolderEnv) (base : String) (s0 : Status) :
    (runStages env base s0).calls =
      preambleCalls env ++ (githubStage env base s0).calls ++
        (vercelStage env base (githubStage env base s0).status).calls ++
        (netlifyStage env base
          (vercelStage env base (githubStage env base s0).status).status).calls := rfl

theorem processFolder_calls (env : FolderEnv) (root folder : String) (index : Nat)
    (h : env.chdirProjectOk = true) :
    ∃ k, (processFolder env root folder index).calls =
      (runStages env (deriveBaseName folder index) (loadStatus env.sidecar)).calls ++
        List.replicate k ExtCall.taskkill := by
  simp only [processFolder, if_pos h]
  split
  · exact ⟨(moveFolderWithRetry env.move).kills, rfl⟩
  · exact ⟨0, by simp⟩

theorem githubStage_preserves (env : FolderEnv) (base : String) (s : Status) :
    (githubStage env base s).status.vercel = s.vercel ∧
      (githubStage env base s).status.netlify = s.netlify := by
  simp only [githubStage]
  split
  · exact ⟨rfl, rfl⟩
  · split
    · exact ⟨rfl, rfl⟩
    · exact ⟨rfl, rfl⟩

theorem vercelStage_preserves (env : FolderEnv) (base : String) (s : Status) :
    (vercelStage env base s).status.github = s.github ∧
      (vercelStage env base s).status.netlify = s.netlify := by
  simp only [vercelStage]
  split
  · exact ⟨rfl, rfl⟩
  · split
    · exact ⟨rfl, rfl⟩
    · exact ⟨rfl, rfl⟩

/-! ### Claim C3: monotonicity of the stage flags -/

/-- C3: every operation of the pipeline on a folder's record only raises
stage flags.  The chain of observations made on one pass — the loaded
record, each record persisted by a stage block in order, and the final
in-memory record — is monotone under `statusLe` (no flag observed true is
later observed false), and loading a well-formed saved record returns it
verbatim, so monotonicity also carries from each save to the next load. -/
theorem stage_flags_monotone (env : FolderEnv) (root folder : String) (index : Nat) :
    List.Chain' statusLe
      (loadStatus env.sidecar :: (processFolder env root folder index).saves ++
        [(processFolder env root folder index).status]) ∧
    (∀ s : Status, loadStatus (some (some s)) = s) := by
  refine ⟨?_, fun s => rfl⟩
  simp only [processFolder]
  split
  · split
    · exact runStages_chain env _ _
    · exact runStages_chain env _ _
  · simp [List.chain'_cons, List.chain'_singleton, statusLe_refl]

/-- C3 witness: the chain evaluated on a concrete pass (fresh sidecar, all
three stage actions succeeding). -/
theorem stage_flags_monotone_witness :
    List.Chain' statusLe
      (loadStatus (FolderEnv.mk none false false (fun _ => CreateResult.ok)
          (fun _ => 0) true true true 7 true false 0 (fun _ => MoveOutcome.ok)
          true).sidecar ::
        (processFolder (FolderEnv.mk none false false (fun _ => CreateResult.ok)
          (fun _ => 0) true true true 7 true false 0 (fun _ => MoveOutcome.ok)
          true) "/root" "app" 0).saves ++
        [(processFolder (FolderEnv.mk none false false (fun _ => CreateResult.ok)
          (fun _ => 0) true true true 7 true false 0 (fun _ => MoveOutcome.ok)
          true) "/root" "app" 0).status]) :=
  (stage_flags_monotone _ "/root" "app" 0).1

/-! ### Claim C2: the relocation gate -/

/-- C2: on a pass that reaches the stage blocks, relocation is invoked
exactly when all three stage flags are true afterwards; when it is not
invoked the folder stays at its original path (and no destination is
computed), and when it is invoked and the rename succeeds the folder ends
up at the computed completed-items destination. -/
theorem relocation_gate_iff (env : FolderEnv) (root folder : String) (index : Nat)
    (h : env.chdirProjectOk = true) :
    ((processFolder env root folder index).moveInvoked =
      allDone (processFolder env root folder index).status) ∧
    ((processFolder env root folder index).moveInvoked = false →
      (processFolder env root folder index).location = projectPath root folder ∧
      (processFolder env root folder index).destUsed = none) ∧
    ((processFolder env root folder index).moveInvoked = true →
      (moveFolderWithRetry env.move).moved = true →
      ∃ d, (processFolder env root folder index).destUsed = some d ∧
        (processFolder env root folder index).location = d) := by
  simp only [processFolder, if_pos h]
  split
  case isTrue hgate =>
    exact ⟨hgate.symm, fun hmv => by simp at hmv,
      fun _ hm => ⟨_, rfl, by simp [hm]⟩⟩
  case isFalse hgate =>
    refine ⟨?_, fun _ => ⟨rfl, rfl⟩, fun hmv => by simp at hmv⟩
    simp only [Bool.not_eq_true] at hgate
    exact hgate.symm

/-! ### Claim C7: relocation retry semantics -/

/-- C7: a rename failing with a lock-class error `n` times and then
succeeding makes the relocation succeed after exactly `n + 1` rename
attempts (for `n < 10`) with a fixed 3000 ms delay between attempts; ten
consecutive lock-class failures make it report failure (no success, no
rethrow) after exactly 10 attempts; a non-lock-class error after `n` lock
failures is rethrown immediately at attempt `n + 1` with no further retry;
and whenever the rename never succeeds the folder stays at its original
path (it is never deleted or partially relocated). -/
theorem relocation_retry_behavior (env : Nat → MoveOutcome) (fenv : FolderEnv)
    (root folder : String) (index : Nat) (n : Nat) :
    ((∀ i, i < n → env i = MoveOutcome.lock) → env n = MoveOutcome.ok → n < 10 →
      moveFolderWithRetry env = ⟨true, false, n + 1, List.replicate n 3000, n⟩) ∧
    ((∀ i, i < 10 → env i = MoveOutcome.lock) →
      moveFolderWithRetry env = ⟨false, false, 10, List.replicate 10 3000, 10⟩) ∧
    ((∀ i, i < n → env i = MoveOutcome.lock) → env n = MoveOutcome.other → n < 10 →
      moveFolderWithRetry env = ⟨false, true, n + 1, List.replicate n 3000, n⟩) ∧
    ((moveFolderWithRetry fenv.move).moved = false →
      (processFolder fenv root folder index).location = projectPath root folder) := by
  refine ⟨fun hl hok hn => ?_, fun hl => ?_, fun hl hot hn => ?_, fun hm => ?_⟩
  · exact moveLoop_run_ok env n 10 0 hn
      (fun i hi => by rw [Nat.zero_add]; exact hl i hi)
      (by rw [Nat.zero_add]; exact hok)
  · exact moveLoop_exhaust env 10 0
      (fun i hi => by rw [Nat.zero_add]; exact hl i hi)
  · exact moveLoop_run_other env n 10 0 hn
      (fun i hi => by rw [Nat.zero_add]; exact hl i hi)
      (by rw [Nat.zero_add]; exact hot)
  · simp only [processFolder]
    split
    · split
      · simp [hm]
      · rfl
    · rfl

/-- C7 witness: two lock failures then success gives exactly three rename
attempts with two 3-second delays; ten lock failures leave a failure report;
an immediate non-lock error is rethrown at the first attempt; and a pass
whose rename never succeeds leaves the folder at its original path. -/
theorem relocation_retry_behavior_witness :
    moveFolderWithRetry (fun i => if i < 2 then MoveOutcome.lock else MoveOutcome.ok) =
      ⟨true, false, 3, [3000, 3000], 2⟩ ∧
    moveFolderWithRetry (fun _ => MoveOutcome.lock) =
      ⟨false, false, 10, List.replicate 10 3000, 10⟩ ∧
    moveFolderWithRetry (fun _ => MoveOutcome.other) =
      ⟨false, true, 1, [], 0⟩ ∧
    (processFolder (FolderEnv.mk (some (some ⟨true, true, true, some "app"⟩))
        true false (fun _ => CreateResult.ok) (fun _ => 0) true true true 7 true
        false 0 (fun _ => MoveOutcome.lock) true) "/root" "app" 0).location =
      projectPath "/root" "app" := by
  refine ⟨?_, ?_, ?_, ?_⟩
  · exact (relocation_retry_behavior
      (fun i => if i < 2 then MoveOutcome.lock else MoveOutcome.ok)
      (FolderEnv.mk none true false (fun _ => CreateResult.ok) (fun _ => 0)
        true true true 7 true false 0 (fun _ => MoveOutcome.ok) true)
      "/root" "app" 0 2).1 (fun i hi => by simp [hi]) (by simp) (by omega)
  · exact (relocation_retry_behavior (fun _ => MoveOutcome.lock)
      (FolderEnv.mk none true false (fun _ => CreateResult.ok) (fun _ => 0)
        true true true 7 true false 0 (fun _ => MoveOutcome.ok) true)
      "/root" "app" 0 0).2.1 (fun i _ => rfl)
  · exact (relocation_retry_behavior (fun _ => MoveOutcome.other)
      (FolderEnv.mk none true false (fun _ => CreateResult.ok) (fun _ => 0)
        true true true 7 true false 0 (fun _ => MoveOutcome.ok) true)
      "/root" "app" 0 0).2.2.1 (fun i hi => by omega) rfl (by omega)
  · exact (relocation_retry_behavior (fun _ => MoveOutcome.ok)
      (FolderEnv.mk (some (some ⟨true, true, true, some "app"⟩))
        true false (fun _ => CreateResult.ok) (fun _ => 0) true true true 7 true
        false 0 (fun _ => MoveOutcome.lock) true)
      "/root" "app" 0 0).2.2.2 (by decide)

/-! ### Claim C6: the VersionControl creation tie-break -/

/-- C6 (behavior at the failing input): the stderr checks of the creation
loop are tested in the source's order, and the first check
`includes("already exists")` subsumes `includes("remote origin already
exists")` — every stderr matching the second matches the first — so the
treat-as-satisfied-and-push branch is unreachable dead code.  Concretely,
an attempt failing with exactly `remote origin already exists` is handled
as a name collision: the candidate is renamed with a random suffix and
creation is retried, and no `git push` is ever issued by the loop on any
input.  (The first half of the tie-break — rename-and-retry bounded at 5
attempts in total — is what the code does, shown here at an all-collision
input.) -/
theorem github_remote_exists_dead_branch :
    (∀ e, isRemoteErr e = true → isCollideErr e = true) ∧
    (∀ (env : Nat → CreateResult) (suf : Nat → Nat) (pm : Bool) (pn : String),
      (createGitHubRepo env suf pm pn).pushes = []) ∧
    createGitHubRepo
        (fun i => if i = 0 then CreateResult.fail "remote origin already exists"
          else CreateResult.ok) (fun i => i + 10) true "repo" =
      ⟨"repo-10", true, ["repo", "repo-10"], []⟩ ∧
    createGitHubRepo
        (fun _ => CreateResult.fail "a repository by that name already exists")
        (fun i => i + 10) true "repo" =
      ⟨"repo-14", false, ["repo", "repo-10", "repo-11", "repo-12", "repo-13"], []⟩ := by
  refine ⟨remote_err_is_collide,
    fun env suf pm pn => ghLoop_pushes_nil env suf pm pn 5 0 pn, ?_, ?_⟩ <;> decide

/-- C6 witness: the subsumption evaluated at the exact stderr of the dead
branch, and the no-push fact evaluated at a concrete environment. -/
theorem github_remote_exists_dead_branch_witness :
    isCollideErr "remote origin already exists" = true ∧
    (createGitHubRepo (fun _ => CreateResult.ok) (fun i => i + 10) true
      "repo").pushes = [] :=
  ⟨github_remote_exists_dead_branch.1 "remote origin already exists" (by decide),
    github_remote_exists_dead_branch.2.1 (fun _ => CreateResult.ok)
      (fun i => i + 10) true "repo"⟩

/-! ### Claim C10: retried candidate names carry a single suffix -/

/-- C10: every name the creation loop returns or attempts is either the
original derived name or the original name with exactly one appended
numeric suffix — candidates are always rebuilt from the original
`projectName`, never from the previous failed candidate. -/
theorem collision_retry_single_suffix (env : Nat → CreateResult) (suf : Nat → Nat)
    (pm : Bool) (pn : String) :
    ((createGitHubRepo env suf pm pn).name = pn ∨
      ∃ i, (createGitHubRepo env suf pm pn).name = pn ++ "-" ++ toString (suf i)) ∧
    (∀ n ∈ (createGitHubRepo env suf pm pn).tried,
      n = pn ∨ ∃ i, n = pn ++ "-" ++ toString (suf i)) :=
  ghLoop_names env suf pm pn 5 0 pn (Or.inl rfl)

/-- C10 witness: after four collisions the returned name is the original
plus one suffix, and a concrete attempted candidate decomposes the same
way. -/
theorem collision_retry_single_suffix_witness :
    ((createGitHubRepo (fun _ => CreateResult.fail "a repository by that name already exists") (fun i => i + 10) true
        "repo").name = "repo" ∨
      ∃ i, (createGitHubRepo (fun _ => CreateResult.fail "a repository by that name already exists") (fun i => i + 10) true
        "repo").name = "repo" ++ "-" ++ toString (i + 10)) ∧
    ("repo-12" = "repo" ∨
      ∃ i, "repo-12" = "repo" ++ "-" ++ toString (i + 10)) :=
  ⟨(collision_retry_single_suffix (fun _ => CreateResult.fail "a repository by that name already exists")
      (fun i => i + 10) true "repo").1,
    (collision_retry_single_suffix (fun _ => CreateResult.fail "a repository by that name already exists")
      (fun i => i + 10) true "repo").2 "repo-12" (by decide)⟩

/-! ### Claim C4: fresh default record on absent or malformed sidecar -/

/-- C4: when the sidecar is absent (`none`) or present but malformed
(`some none`), loading cannot raise (the reader is total, with the parse
failure swallowed) and yields the fresh default record with all three stage
flags false; the effective identity of that fresh record
(`status.repoName || baseName`) is the derived base name, which is never
empty — malformed content is treated identically to absent content. -/
theorem status_load_fresh_default (c : Option (Option Status)) (folder : String)
    (index : Nat) (h : c = none ∨ c = some none) :
    loadStatus c = defaultStatus ∧
    (loadStatus c).github = false ∧ (loadStatus c).vercel = false ∧
    (loadStatus c).netlify = false ∧
    jsOr (loadStatus c).repoName (deriveBaseName folder index) =
      deriveBaseName folder index ∧
    deriveBaseName folder index ≠ "" := by
  rcases h with rfl | rfl <;>
    exact ⟨rfl, rfl, rfl, rfl, rfl, deriveBaseName_ne_empty folder index⟩

/-- C4 witness: an absent sidecar for folder `My Cool App` yields the
default record, and its effective identity is the non-empty derived name. -/
theorem status_load_fresh_default_witness :
    loadStatus none = defaultStatus ∧
    (loadStatus none).github = false ∧ (loadStatus none).vercel = false ∧
    (loadStatus none).netlify = false ∧
    jsOr (loadStatus none).repoName (deriveBaseName "My Cool App" 0) =
      deriveBaseName "My Cool App" 0 ∧
    deriveBaseName "My Cool App" 0 ≠ "" :=
  status_load_fresh_default none "My Cool App" 0 (Or.inl rfl)

/-! ### Claim C8: destination collision policy -/

/-- C8: when the completed-items destination already contains the folder's
name, the relocation targets the name suffixed with the `Date.now()`
timestamp, and that target is never equal to the pre-existing destination
path — the pre-existing folder is not overwritten or merged into. -/
theorem dest_collision_timestamp (env : FolderEnv) (root folder : String)
    (index : Nat) (hex : env.destExists = true) :
    (processFolder env root folder index).moveInvoked = true →
      (processFolder env root folder index).destUsed =
        some (donePath root (folder ++ "_" ++ toString env.now)) ∧
      (processFolder env root folder index).destUsed ≠
        some (donePath root folder) := by
  by_cases h1 : env.chdirProjectOk = true
  · simp only [processFolder, if_pos h1]
    split
    · intro _
      refine ⟨by simp [finalDestName, hex], ?_⟩
      simp only [finalDestName, hex, if_true, ne_eq, Option.some.injEq, donePath]
      intro hcontr
      exact string_append_underscore_ne (root ++ "/upload done/") folder
        (toString env.now) hcontr
    · intro hmv
      simp at hmv
  · simp only [processFolder, if_neg h1]
    intro hmv
    simp at hmv

/-- C8 witness: a completed folder `app` whose destination name already
exists is renamed to the timestamp-suffixed destination, distinct from the
occupied path. -/
theorem dest_collision_timestamp_witness :
    (processFolder (FolderEnv.mk (some (some ⟨true, true, true, some "app"⟩))
        true false (fun _ => CreateResult.ok) (fun _ => 0) true true true 7 true
        true 1234 (fun _ => MoveOutcome.ok) true) "/root" "app" 0).destUsed =
      some (donePath "/root" ("app" ++ "_" ++ toString (1234 : Nat))) ∧
    (processFolder (FolderEnv.mk (some (some ⟨true, true, true, some "app"⟩))
        true false (fun _ => CreateResult.ok) (fun _ => 0) true true true 7 true
        true 1234 (fun _ => MoveOutcome.ok) true) "/root" "app" 0).destUsed ≠
      some (donePath "/root" "app") :=
  dest_collision_timestamp (FolderEnv.mk (some (some ⟨true, true, true, some "app"⟩))
      true false (fun _ => CreateResult.ok) (fun _ => 0) true true true 7 true
      true 1234 (fun _ => MoveOutcome.ok) true) "/root" "app" 0 rfl (by decide)

/-! ### Claim C9: restoration of the working directory -/

/-- C9 (amended): the working directory is restored to the batch root
before relocation (and the pass ends at the root whenever relocation is
invoked, including after a rethrown rename error), and the per-folder error
path also restores it; but on the stages-incomplete path — the gate fails
and the folder is kept for retry — the working directory is NOT restored:
it is still the processed folder's path when the orchestrator moves on. -/
theorem cwd_restoration_amended (env : FolderEnv) (root folder : String)
    (index : Nat) :
    ((processFolder env root folder index).moveInvoked = true →
      (processFolder env root folder index).preMoveCwd = some root ∧
      (processFolder env root folder index).cwd = root) ∧
    (env.chdirProjectOk = false →
      (processFolder env root folder index).cwd = root) ∧
    (env.chdirProjectOk = true →
      (processFolder env root folder index).moveInvoked = false →
      (processFolder env root folder index).cwd = projectPath root folder) := by
  refine ⟨?_, ?_, ?_⟩
  · by_cases h : env.chdirProjectOk = true
    · simp only [processFolder, if_pos h]
      split
      · exact fun _ => ⟨rfl, rfl⟩
      · exact fun hmv => by simp at hmv
    · simp only [processFolder, if_neg h]
      exact fun hmv => by simp at hmv
  · intro hf
    have h : ¬(env.chdirProjectOk = true) := by simp [hf]
    simp only [processFolder, if_neg h]
  · intro ht hmv
    simp only [processFolder, if_pos ht] at hmv ⊢
    by_cases hgate :
        allDone (runStages env (deriveBaseName folder index)
          (loadStatus env.sidecar)).status = true
    · rw [if_pos hgate] at hmv
      exact absurd hmv (by simp)
    · rw [if_neg hgate]

/-- C9 witness: a completed pass ends at the root with the pre-move
restoration recorded, and a pass whose project chdir fails ends at the
root. -/
theorem cwd_restoration_amended_witness :
    ((processFolder (FolderEnv.mk (some (some ⟨true, true, true, some "app"⟩))
        true false (fun _ => CreateResult.ok) (fun _ => 0) true true true 7 true
        false 0 (fun _ => MoveOutcome.ok) true) "/root" "app" 0).preMoveCwd =
          some "/root" ∧
      (processFolder (FolderEnv.mk (some (some ⟨true, true, true, some "app"⟩))
        true false (fun _ => CreateResult.ok) (fun _ => 0) true true true 7 true
        false 0 (fun _ => MoveOutcome.ok) true) "/root" "app" 0).cwd = "/root") ∧
    (processFolder (FolderEnv.mk none true false (fun _ => CreateResult.ok)
        (fun _ => 0) true true true 7 true false 0 (fun _ => MoveOutcome.ok)
        false) "/root" "app" 0).cwd = "/root" :=
  ⟨(cwd_restoration_amended (FolderEnv.mk (some (some ⟨true, true, true, some "app"⟩))
      true false (fun _ => CreateResult.ok) (fun _ => 0) true true true 7 true
      false 0 (fun _ => MoveOutcome.ok) true) "/root" "app" 0).1 (by decide),
    (cwd_restoration_amended (FolderEnv.mk none true false (fun _ => CreateResult.ok)
      (fun _ => 0) true true true 7 true false 0 (fun _ => MoveOutcome.ok)
      false) "/root" "app" 0).2.1 rfl⟩

/-- C9 counterexample: a pass that runs the stages but leaves flags
incomplete (Vercel fails) ends with the working directory still inside the
processed folder, not restored to the batch root — refuting restoration on
every exit path. -/
theorem cwd_not_restored_counterexample :
    (processFolder (FolderEnv.mk none true false (fun _ => CreateResult.ok)
        (fun _ => 0) true false false 7 false false 0 (fun _ => MoveOutcome.ok)
        true) "/root" "app" 0).moveInvoked = false ∧
    (processFolder (FolderEnv.mk none true false (fun _ => CreateResult.ok)
        (fun _ => 0) true false false 7 false false 0 (fun _ => MoveOutcome.ok)
        true) "/root" "app" 0).cwd ≠ "/root" := by
  decide

/-! ### Claim C1: stage outcome versus flag and persistence -/

/-- The failing input for the GitHub stage: fresh sidecar, and the very
first `gh repo create` exits non-zero with stderr matching neither
"already exists" nor "remote origin already exists". -/
def envGhFail : FolderEnv where
  sidecar := none
  hasGitDir := false
  hasNetlifyDir := false
  gh := fun _ => CreateResult.fail "graphql error: something went wrong"
  suf := fun _ => 0
  pushMasterOk := true
  vercelOk := false
  netlifyCreateOk := false
  netSuffix := 7
  netlifyOk := false
  destExists := false
  now := 0
  move := fun _ => MoveOutcome.ok
  chdirProjectOk := true

/-- C1 (behavior at the failing input): the creation loop itself reports
`created = false` — the external action failed — yet the pass flips the
github flag to true and immediately persists the record anyway, because
`createGitHubRepo` returns its (truthy) `currentName` on every path and the
guard `if (finalRepoName)` therefore always passes.  The Vercel and Netlify
stages do honour the contract here: their deploys fail, their flags stay
false, and nothing further is persisted. -/
theorem github_flag_set_despite_failure :
    (createGitHubRepo envGhFail.gh envGhFail.suf envGhFail.pushMasterOk
      (jsOr (loadStatus envGhFail.sidecar).repoName
        (deriveBaseName "app" 0))).created = false ∧
    (processFolder envGhFail "/root" "app" 0).status.github = true ∧
    (processFolder envGhFail "/root" "app" 0).status.vercel = false ∧
    (processFolder envGhFail "/root" "app" 0).status.netlify = false ∧
    (processFolder envGhFail "/root" "app" 0).saves =
      [Status.mk true false false (some "app")] := by
  decide

/-! ### Claim C5: idempotent re-run of completed work -/

theorem preamble_not_collab (env : FolderEnv) :
    ∀ c ∈ preambleCalls env,
      isGhCall c = false ∧ isVercelCall c = false ∧ isNetlifyCall c = false := by
  intro c hc
  rcases preamble_mem env c hc with rfl | rfl | rfl <;> exact ⟨rfl, rfl, rfl⟩

theorem githubStage_not_other (env : FolderEnv) (base : String) (s : Status) :
    ∀ c ∈ (githubStage env base s).calls,
      isVercelCall c = false ∧ isNetlifyCall c = false := by
  intro c hc
  rcases githubStage_mem env base s c hc with ⟨x, rfl⟩ | ⟨x, rfl⟩ <;> exact ⟨rfl, rfl⟩

theorem vercelStage_not_other (env : FolderEnv) (base : String) (s : Status) :
    ∀ c ∈ (vercelStage env base s).calls,
      isGhCall c = false ∧ isNetlifyCall c = false := by
  intro c hc
  rcases vercelStage_mem env base s c hc with ⟨x, rfl⟩ | rfl <;> exact ⟨rfl, rfl⟩

theorem netlifyStage_not_other (env : FolderEnv) (base : String) (s : Status) :
    ∀ c ∈ (netlifyStage env base s).calls,
      isGhCall c = false ∧ isVercelCall c = false := by
  intro c hc
  rcases netlifyStage_mem env base s c hc with ⟨x, rfl⟩ | rfl | rfl <;>
    exact ⟨rfl, rfl⟩

theorem taskkill_not_collab (k : Nat) :
    ∀ c ∈ List.replicate k ExtCall.taskkill,
      isGhCall c = false ∧ isVercelCall c = false ∧ isNetlifyCall c = false := by
  intro c hc
  rw [List.eq_of_mem_replicate hc]
  exact ⟨rfl, rfl, rfl⟩

/-- C5 (amended): a stage whose flag is already true triggers zero
invocations of that stage's own collaborator, and a folder whose record
already has all three flags true triggers zero gh/vercel/netlify
collaborator calls and proceeds straight to relocation — every call it
still makes is the unconditional `git init`/`git add`/`git commit`
preamble (or the lock-breaking `taskkill` of the relocation retry), which
runs on every pass and keeps the re-run from being free of external
side-effecting calls. -/
theorem stage_skip_no_collaborator_calls (env : FolderEnv) (root folder : String)
    (index : Nat) (h : env.chdirProjectOk = true) :
    ((loadStatus env.sidecar).github = true →
      (processFolder env root folder index).calls.countP isGhCall = 0) ∧
    ((loadStatus env.sidecar).vercel = true →
      (processFolder env root folder index).calls.countP isVercelCall = 0) ∧
    ((loadStatus env.sidecar).netlify = true →
      (processFolder env root folder index).calls.countP isNetlifyCall = 0) ∧
    (allDone (loadStatus env.sidecar) = true →
      (processFolder env root folder index).moveInvoked = true ∧
      (processFolder env root folder index).calls.countP
        (fun c => isGhCall c || isVercelCall c || isNetlifyCall c) = 0 ∧
      (∀ c ∈ (processFolder env root folder index).calls,
        isPreambleCall c = true ∨ c = ExtCall.taskkill)) := by
  obtain ⟨k, hcalls⟩ := processFolder_calls env root folder index h
  have hmem : ∀ c ∈ (processFolder env root folder index).calls,
      c ∈ preambleCalls env ∨
      c ∈ (githubStage env (deriveBaseName folder index)
        (loadStatus env.sidecar)).calls ∨
      c ∈ (vercelStage env (deriveBaseName folder index)
        (githubStage env (deriveBaseName folder index)
          (loadStatus env.sidecar)).status).calls ∨
      c ∈ (netlifyStage env (deriveBaseName folder index)
        (vercelStage env (deriveBaseName folder index)
          (githubStage env (deriveBaseName folder index)
            (loadStatus env.sidecar)).status).status).calls ∨
      c = ExtCall.taskkill := by
    intro c hc
    rw [hcalls, runStages_calls_def] at hc
    simp only [List.mem_append] at hc
    rcases hc with ((((hp | hg) | hv) | hn) | ht)
    · exact Or.inl hp
    · exact Or.inr (Or.inl hg)
    · exact Or.inr (Or.inr (Or.inl hv))
    · exact Or.inr (Or.inr (Or.inr (Or.inl hn)))
    · exact Or.inr (Or.inr (Or.inr (Or.inr (List.eq_of_mem_replicate ht))))
  refine ⟨fun hg0 => ?_, fun hv0 => ?_, fun hn0 => ?_, fun hall => ?_⟩
  · have hgsk := githubStage_skip env (deriveBaseName folder index)
      (loadStatus env.sidecar) hg0
    apply countP_zero_of_all_false
    intro c hc
    rcases hmem c hc with hp | hgm | hvm | hnm | rfl
    · exact (preamble_not_collab env c hp).1
    · rw [hgsk] at hgm
      simp at hgm
    · exact (vercelStage_not_other _ _ _ c hvm).1
    · exact (netlifyStage_not_other _ _ _ c hnm).1
    · rfl
  · have hvflag : (githubStage env (deriveBaseName folder index)
        (loadStatus env.sidecar)).status.vercel = true := by
      rw [(githubStage_preserves env (deriveBaseName folder index)
        (loadStatus env.sidecar)).1]
      exact hv0
    have hvsk := vercelStage_skip env (deriveBaseName folder index) _ hvflag
    apply countP_zero_of_all_false
    intro c hc
    rcases hmem c hc with hp | hgm | hvm | hnm | rfl
    · exact (preamble_not_collab env c hp).2.1
    · exact (githubStage_not_other _ _ _ c hgm).1
    · rw [hvsk] at hvm
      simp at hvm
    · exact (netlifyStage_not_other _ _ _ c hnm).2
    · rfl
  · have h1 : (githubStage env (deriveBaseName folder index)
        (loadStatus env.sidecar)).status.netlify = true := by
      rw [(githubStage_preserves env (deriveBaseName folder index)
        (loadStatus env.sidecar)).2]
      exact hn0
    have h2 : (vercelStage env (deriveBaseName folder index)
        (githubStage env (deriveBaseName folder index)
          (loadStatus env.sidecar)).status).status.netlify = true := by
      rw [(vercelStage_preserves env (deriveBaseName folder index) _).2]
      exact h1
    have hnsk := netlifyStage_skip env (deriveBaseName folder index) _ h2
    apply countP_zero_of_all_false
    intro c hc
    rcases hmem c hc with hp | hgm | hvm | hnm | rfl
    · exact (preamble_not_collab env c hp).2.2
    · exact (githubStage_not_other _ _ _ c hgm).2
    · exact (vercelStage_not_other _ _ _ c hvm).2
    · rw [hnsk] at hnm
      simp at hnm
    · rfl
  · simp only [allDone, Bool.and_eq_true] at hall
    obtain ⟨⟨hg0, hv0⟩, hn0⟩ := hall
    have hgsk := githubStage_skip env (deriveBaseName folder index)
      (loadStatus env.sidecar) hg0
    have hvsk := vercelStage_skip env (deriveBaseName folder index)
      (loadStatus env.sidecar) hv0
    have hnsk := netlifyStage_skip env (deriveBaseName folder index)
      (loadStatus env.sidecar) hn0
    have hrun : runStages env (deriveBaseName folder index) (loadStatus env.sidecar) =
        ⟨loadStatus env.sidecar, [], preambleCalls env⟩ := by
      simp [runStages, hgsk, hvsk, hnsk]
    have hall' : allDone (loadStatus env.sidecar) = true := by
      simp [allDone, hg0, hv0, hn0]
    have hcalls2 : (processFolder env root folder index).calls =
        preambleCalls env ++ List.replicate k ExtCall.taskkill := by
      rw [hcalls, hrun]
    refine ⟨?_, ?_, ?_⟩
    · simp only [processFolder, if_pos h, hrun]
      simp [hall']
    · rw [hcalls2, List.countP_append]
      have hz1 : (preambleCalls env).countP
          (fun c => isGhCall c || isVercelCall c || isNetlifyCall c) = 0 := by
        apply countP_zero_of_all_false
        intro c hc
        rcases preamble_mem env c hc with rfl | rfl | rfl <;> rfl
      have hz2 : (List.replicate k ExtCall.taskkill).countP
          (fun c => isGhCall c || isVercelCall c || isNetlifyCall c) = 0 := by
        apply countP_zero_of_all_false
        intro c hc
        rw [List.eq_of_mem_replicate hc]
        rfl
      rw [hz1, hz2]
    · rw [hcalls2]
      intro c hc
      simp only [List.mem_append] at hc
      rcases hc with hp | ht
      · rcases preamble_mem env c hp with rfl | rfl | rfl <;> exact Or.inl rfl
      · exact Or.inr (List.eq_of_mem_replicate ht)

/-- C5 witness: for a folder whose record already has all three flags true,
a re-run makes zero collaborator calls for every stage and goes straight to
relocation. -/
theorem stage_skip_no_collaborator_calls_witness :
    ((processFolder (FolderEnv.mk (some (some ⟨true, true, true, some "app"⟩))
        true false (fun _ => CreateResult.ok) (fun _ => 0) true true true 7 true
        false 0 (fun _ => MoveOutcome.ok) true) "/root" "app" 0).calls.countP
      isGhCall = 0) ∧
    ((processFolder (FolderEnv.mk (some (some ⟨true, true, true, some "app"⟩))
        true false (fun _ => CreateResult.ok) (fun _ => 0) true true true 7 true
        false 0 (fun _ => MoveOutcome.ok) true) "/root" "app" 0).moveInvoked = true ∧
      (processFolder (FolderEnv.mk (some (some ⟨true, true, true, some "app"⟩))
        true false (fun _ => CreateResult.ok) (fun _ => 0) true true true 7 true
        false 0 (fun _ => MoveOutcome.ok) true) "/root" "app" 0).calls.countP
        (fun c => isGhCall c || isVercelCall c || isNetlifyCall c) = 0) :=
  ⟨(stage_skip_no_collaborator_calls (FolderEnv.mk
      (some (some ⟨true, true, true, some "app"⟩)) true false
      (fun _ => CreateResult.ok) (fun _ => 0) true true true 7 true false 0
      (fun _ => MoveOutcome.ok) true) "/root" "app" 0 rfl).1 rfl,
    ((stage_skip_no_collaborator_calls (FolderEnv.mk
      (some (some ⟨true, true, true, some "app"⟩)) true false
      (fun _ => CreateResult.ok) (fun _ => 0) true true true 7 true false 0
      (fun _ => MoveOutcome.ok) true) "/root" "app" 0 rfl).2.2.2 rfl).1,
    ((stage_skip_no_collaborator_calls (FolderEnv.mk
      (some (some ⟨true, true, true, some "app"⟩)) true false
      (fun _ => CreateResult.ok) (fun _ => 0) true true true 7 true false 0
      (fun _ => MoveOutcome.ok) true) "/root" "app" 0 rfl).2.2.2 rfl).2.1⟩

/-- C5 counterexample: a folder whose record already has all three flags
true still triggers external side-effecting calls on a re-run — the
unconditional `git add` and `git commit` — so the re-run is not free of
external calls. -/
theorem idle_rerun_counterexample :
    loadStatus (FolderEnv.mk (some (some ⟨true, true, true, some "app"⟩))
        true false (fun _ => CreateResult.ok) (fun _ => 0) true true true 7 true
        false 0 (fun _ => MoveOutcome.ok) true).sidecar =
      Status.mk true true true (some "app") ∧
    (processFolder (FolderEnv.mk (some (some ⟨true, true, true, some "app"⟩))
        true false (fun _ => CreateResult.ok) (fun _ => 0) true true true 7 true
        false 0 (fun _ => MoveOutcome.ok) true) "/root" "app" 0).calls =
      [ExtCall.gitAdd, ExtCall.gitCommit] ∧
    (processFolder (FolderEnv.mk (some (some ⟨true, true, true, some "app"⟩))
        true false (fun _ => CreateResult.ok) (fun _ => 0) true true true 7 true
        false 0 (fun _ => MoveOutcome.ok) true) "/root" "app" 0).calls ≠ [] := by
  decide

/-- C2 witness: a pass loading an all-true record invokes relocation and,
with the rename succeeding, lands the folder at the computed destination;
the gate equality is evaluated at the same concrete input. -/
theorem relocation_gate_iff_witness :
    ((processFolder (FolderEnv.mk (some (some ⟨true, true, true, some "app"⟩))
        true false (fun _ => CreateResult.ok) (fun _ => 0) true true true 7 true
        false 0 (fun _ => MoveOutcome.ok) true) "/root" "app" 0).moveInvoked =
      allDone (processFolder (FolderEnv.mk (some (some ⟨true, true, true, some "app"⟩))
        true false (fun _ => CreateResult.ok) (fun _ => 0) true true true 7 true
        false 0 (fun _ => MoveOutcome.ok) true) "/root" "app" 0).status) ∧
    (∃ d, (processFolder (FolderEnv.mk (some (some ⟨true, true, true, some "app"⟩))
        true false (fun _ => CreateResult.ok) (fun _ => 0) true true true 7 true
        false 0 (fun _ => MoveOutcome.ok) true) "/root" "app" 0).destUsed = some d ∧
      (processFolder (FolderEnv.mk (some (some ⟨true, true, true, some "app"⟩))
        true false (fun _ => CreateResult.ok) (fun _ => 0) true true true 7 true
        false 0 (fun _ => MoveOutcome.ok) true) "/root" "app" 0).location = d) :=
  ⟨(relocation_gate_iff (FolderEnv.mk (some (some ⟨true, true, true, some "app"⟩))
      true false (fun _ => CreateResult.ok) (fun _ => 0) true true true 7 true
      false 0 (fun _ => MoveOutcome.ok) true) "/root" "app" 0 rfl).1,
    (relocation_gate_iff (FolderEnv.mk (some (some ⟨true, true, true, some "app"⟩))
      true false (fun _ => CreateResult.ok) (fun _ => 0) true true true 7 true
      false 0 (fun _ => MoveOutcome.ok) true) "/root" "app" 0 rfl).2.2
      (by decide) (by decide)⟩
